import Mathlib

/-!
Shallow embedding of the memory subsystem of the flai_agent repository
(src/services/memory_classifier.py, persistent_memory_service.py,
memory_service.py, vector_store.py, src/core/dialogue_query.py).

Python dictionaries parsed from LLM JSON replies are embedded as the
inductive `JVal`; Python exceptions as the `Except PyErr` monad; the
relational store, the in-process short-term cache and the vector index
as the explicit `World` state threaded through each operation.  Outbound
LLM / embedding / vector-search calls are oracles supplied as
parameters (`LlmResult`, `VecEnv`), since their replies are free inputs
of the program.
-/

namespace Flai

/-- A parsed JSON value, as produced by chat_completion with parse_json=True. -/
inductive JVal where
  | str (s : String)
  | num (n : Int)
  | bool (b : Bool)
  | null
  | arr (items : List JVal)
  | obj (fields : List (String × JVal))

/-- Outcome of an llm_service.chat_completion call as observed by the caller:
either a parsed JSON value or an exception (timeout, HTTP error, JSON parse
failure after retries). -/
inductive LlmResult where
  | ok (v : JVal)
  | exn

/-- Python equality between a parsed-JSON value and a string literal: true
exactly when the value is that string. -/
def JVal.eqStr : JVal → String → Bool
  | .str s, t => s == t
  | _, _ => false

/-- Python dict.get on a parsed JSON object: first binding of the key, or the
default. -/
def jGetD (fields : List (String × JVal)) (k : String) (d : JVal) : JVal :=
  (fields.lookup k).getD d

mutual

/-- Python str() applied to a parsed-JSON value. Scalar cases follow CPython;
compound values use a canonical rendering (their exact text is never
inspected by the modelled code). -/
def pyStr : JVal → String
  | .str s => s
  | .num n => toString n
  | .bool b => if b then "True" else "False"
  | .null => "None"
  | .arr items => "[" ++ pyStrList items ++ "]"
  | .obj fields => "obj(" ++ pyStrFields fields ++ ")"

/-- Comma-joined rendering of a list of JSON values. -/
def pyStrList : List JVal → String
  | [] => ""
  | [x] => pyStr x
  | x :: xs => pyStr x ++ ", " ++ pyStrList xs

/-- Comma-joined rendering of the fields of a JSON object. -/
def pyStrFields : List (String × JVal) → String
  | [] => ""
  | [(k, v)] => k ++ ": " ++ pyStr v
  | (k, v) :: xs => k ++ ": " ++ pyStr v ++ ", " ++ pyStrFields xs

end

/-- A Python exception reaching a caller. -/
inductive PyErr where
  | keyError (k : String)
  | dbError
deriving DecidableEq, Repr

/-! ## memory_classifier.py -/

/-- MemoryClassifier.classify_memory_type: sends the classification prompt and
validates the reply.  Returns the Python dict built at the end of the
function, as an association list.  The whole body sits in one try/except:
an LLM failure, or a reply that is not a dict (so that result.get raises),
lands in the except branch which returns the default dict with
memory_type "none". -/
def classify_memory_type (llm : LlmResult) : List (String × JVal) :=
  match llm with
  | .exn =>
      [("memory_type", .str "none"), ("memory_content", .str ""),
       ("reason", .str "分类失败")]
  | .ok v =>
    match v with
    | .obj fields =>
      let mt := jGetD fields "memory_type" (.str "none")
      let mt :=
        if mt.eqStr "none" || mt.eqStr "short_term" || mt.eqStr "long_term"
        then mt else .str "none"
      [("memory_type", mt),
       ("memory_content", jGetD fields "memory_content" (.str "")),
       ("reason", jGetD fields "reason" (.str ""))]
    | _ =>
      [("memory_type", .str "none"), ("memory_content", .str ""),
       ("reason", .str "分类失败")]

/-! ## persistent_memory_service.py: long-term consolidation -/

/-- One long-term memory entry, the validated shape stored in
chat_memory.long_term_memory. -/
structure MemEntry where
  time : String
  content : String
deriving DecidableEq, Repr

/-- Python l[-n:]: the last n elements of a list. -/
def lastN (n : Nat) (l : List α) : List α :=
  l.drop (l.length - n)

/-- The validation loop inside _summarize_memories: keep only items that are
dicts carrying both a "time" and a "content" key, stringified. -/
def validateEntries (items : List JVal) : List MemEntry :=
  items.filterMap fun item =>
    match item with
    | .obj fields =>
      match fields.lookup "time", fields.lookup "content" with
      | some t, some c => some ⟨pyStr t, pyStr c⟩
      | _, _ => none
    | _ => none

/-- The fallback branch of _summarize_memories: append the new entry and keep
the last 5. -/
def fallbackMerge (existing : List MemEntry) (newM : MemEntry) : List MemEntry :=
  lastN 5 (existing ++ [newM])

/-- PersistentMemoryService._summarize_memories: ask the LLM to merge the new
entry into the existing list; if the reply is a JSON list, keep the first 5
validated entries; on any other reply shape or on an exception, fall back to
appending the new entry and keeping the last 5. -/
def _summarize_memories (llm : LlmResult) (existing : List MemEntry)
    (newM : MemEntry) : List MemEntry :=
  match llm with
  | .ok (.arr items) => (validateEntries items).take 5
  | .ok _ => fallbackMerge existing newM
  | .exn => fallbackMerge existing newM

/-! ## persistent_memory_service.py: state, short-term cache and flush -/

/-- One row of the chat_memory table for a (user_id, robot_id) key. -/
structure DbRecord where
  short_term_memory : String
  long_term_memory : String
  conversation_count : Nat
deriving DecidableEq, Repr

/-- One entry of the class-level _short_term_cache defaultdict. -/
structure CacheEntry where
  memories : List String
  count : Nat
  dialogues : List (String × String)
deriving DecidableEq, Repr

/-- The defaultdict default for a fresh cache key. -/
def CacheEntry.empty : CacheEntry :=
  { memories := [], count := 0, dialogues := [] }

/-- The mutable stores the service touches: the chat_memory table keyed by
(user_id, robot_id), the in-process short-term cache keyed by the string
"user_id:robot_id", and the vector index (a list of points, defined
below with vector_store.py). -/
structure VPoint where
  id : Nat
  vector : List Int
  payload_user_id : String
  payload_user_message : String
  payload_ai_response : String
deriving DecidableEq, Repr

structure World where
  records : String × String → Option DbRecord
  cacheAt : String → CacheEntry
  vectors : List VPoint

/-- Whether the relational store answers reads / accepts writes; a false flag
models query_with_retry exhausting its attempts and re-raising. -/
structure DbEnv where
  readOk : Bool
  writeOk : Bool
deriving DecidableEq, Repr

/-- The Python cache_key f-string. -/
def cacheKey (user_id robot_id : String) : String :=
  user_id ++ ":" ++ robot_id

def World.setRecord (w : World) (user_id robot_id : String) (r : DbRecord) :
    World :=
  { w with records := fun p => if p = (user_id, robot_id) then some r else w.records p }

def World.setCache (w : World) (key : String) (e : CacheEntry) : World :=
  { w with cacheAt := fun k => if k = key then e else w.cacheAt k }

/-- The UPDATE of _increment_conversation_count: bump the counter of the row
when it exists (an UPDATE matching no row is a no-op). -/
def World.incCount (w : World) (user_id robot_id : String) : World :=
  match w.records (user_id, robot_id) with
  | some r =>
      w.setRecord user_id robot_id
        { r with conversation_count := r.conversation_count + 1 }
  | none => w

/-- The result dictionaries returned by the short-term cache paths. -/
inductive STResult where
  | cached (pending_count remaining_rounds : Nat)
  | flushed (flushed_count : Nat)
  | noPending
  | noRecord
  | flushError
deriving DecidableEq, Repr

/-- Python combined[-5000:] on the merged short-term text. -/
def capTail (s : String) : String :=
  if s.length > 5000 then s.drop (s.length - 5000) else s

/-- PersistentMemoryService._flush_short_term_cache: stamp the cached
memories, append them to the stored short_term_memory (capped to its last
5000 characters), write the row with the counter bumped by the number of
flushed memories, then reset the cache entry.  Every step runs inside one
try/except: a read or write failure returns the error dictionary and leaves
the cache entry untouched. -/
def _flush_short_term_cache (db : DbEnv) (today : String)
    (user_id robot_id : String) (w : World) : World × STResult :=
  let key := cacheKey user_id robot_id
  let entry := w.cacheAt key
  if entry.memories = [] then (w, .noPending)
  else if ¬ db.readOk then (w, .flushError)
  else
    match w.records (user_id, robot_id) with
    | none => (w, .noRecord)
    | some r =>
      let stamped := entry.memories.map (fun m => "[" ++ today ++ "] " ++ m)
      let newText := String.intercalate "\n" stamped
      let combined :=
        if r.short_term_memory ≠ "" then r.short_term_memory ++ "\n" ++ newText
        else newText
      let combined := capTail combined
      if ¬ db.writeOk then (w, .flushError)
      else
        let r' := { r with
          short_term_memory := combined,
          conversation_count := r.conversation_count + entry.memories.length }
        let w1 := (w.setRecord user_id robot_id r').setCache key CacheEntry.empty
        (w1, .flushed entry.memories.length)

/-- PersistentMemoryService._handle_short_term_memory: append the snippet to
the cache and bump the in-memory round counter; at the threshold flush to
the database, otherwise bump the durable conversation_count (a failure of
that write is swallowed) and report the cached status with the remaining
rounds. -/
def _handle_short_term_memory (interval : Nat) (db : DbEnv) (today : String)
    (user_id robot_id memory_content : String) (w : World) : World × STResult :=
  let key := cacheKey user_id robot_id
  let e := w.cacheAt key
  let e1 := { e with memories := e.memories ++ [memory_content], count := e.count + 1 }
  let w1 := w.setCache key e1
  if e1.count ≥ interval then
    _flush_short_term_cache db today user_id robot_id w1
  else
    let w2 := if db.writeOk then w1.incCount user_id robot_id else w1
    (w2, .cached e1.memories.length (interval - e1.count))

/-! ## persistent_memory_service.py: process_conversation_memory -/

/-- The memory-related service configuration. -/
structure MemCfg where
  short_term_update_interval : Nat
  enabled_characters : List String
  global_enabled : Bool
deriving DecidableEq, Repr

/-- The configuration defaults applied in PersistentMemoryService: interval 7,
no character list (meaning all enabled), globally enabled. -/
def MemCfg.default : MemCfg :=
  { short_term_update_interval := 7, enabled_characters := [], global_enabled := true }

/-- PersistentMemoryService.is_memory_enabled. -/
def is_memory_enabled (cfg : MemCfg) (character_id : String) : Bool :=
  if ¬ cfg.global_enabled then false
  else if cfg.enabled_characters = [] then true
  else cfg.enabled_characters.contains character_id

/-- The environment of one process_conversation_memory call: the database
health, the classifier's LLM reply and today's date stamp. -/
structure ProcEnv where
  db : DbEnv
  classifierLlm : LlmResult
  today : String

/-- The result dictionaries process_conversation_memory can return. -/
inductive ProcResult where
  | disabled
  | guest
  | recordError
  | noneType
  | shortTerm (r : STResult)
  | longTermScheduled
  | fallthrough (memory_type : String)
deriving DecidableEq, Repr

/-- Python dict subscription d[k]: the value, or a raised KeyError. -/
def dictGet (d : List (String × JVal)) (k : String) : Except PyErr JVal :=
  match d.lookup k with
  | some v => Except.ok v
  | none => Except.error (.keyError k)

/-- PersistentMemoryService.process_conversation_memory.  The guest and
disabled guards return early; the record is fetched (and lazily created)
inside a try/except that degrades to an error dictionary; the classifier is
then consulted and its result dictionary is read at key "is_long" — an
access outside any try/except, so a KeyError there propagates to the
caller.  The none branch bumps the durable counter (failures swallowed) and
caches the raw exchange for later batch summarization (the summary task is
spawned fire-and-forget and is not part of this call's effects); the
short_term branch delegates to _handle_short_term_memory; the long_term
branch only spawns a background task and acknowledges immediately. -/
def process_conversation_memory (cfg : MemCfg) (env : ProcEnv)
    (user_id character_id user_message ai_response : String) (w : World) :
    World × Except PyErr ProcResult :=
  if ¬ is_memory_enabled cfg character_id then (w, .ok .disabled)
  else if user_id = "guest" then (w, .ok .guest)
  else if ¬ env.db.readOk then (w, .ok .recordError)
  else
    let ensured : World × Option DbRecord :=
      match w.records (user_id, character_id) with
      | some r => (w, some r)
      | none =>
        if env.db.writeOk then
          let fresh : DbRecord :=
            { short_term_memory := "", long_term_memory := "", conversation_count := 0 }
          ((w.setRecord user_id character_id fresh), some fresh)
        else (w, none)
    match ensured with
    | (w1, none) => (w1, .ok .recordError)
    | (w1, some _) =>
      let classification := classify_memory_type env.classifierLlm
      match dictGet classification "is_long" with
      | .error e => (w1, .error e)
      | .ok is_long =>
        match dictGet classification "memory_content" with
        | .error e => (w1, .error e)
        | .ok memory_content =>
          let memory_type :=
            if is_long.eqStr "yes" then "long_term"
            else if is_long.eqStr "no" then "none"
            else "none"
          if memory_type = "none" then
            let w2 := if env.db.writeOk then w1.incCount user_id character_id else w1
            let key := cacheKey user_id character_id
            let e := w2.cacheAt key
            let e1 := { e with
              dialogues := e.dialogues ++ [(user_message, ai_response)],
              count := e.count + 1 }
            (w2.setCache key e1, .ok .noneType)
          else if memory_type = "short_term" then
            let (w2, r) := _handle_short_term_memory cfg.short_term_update_interval
              env.db env.today user_id character_id (pyStr memory_content) w1
            (w2, .ok (.shortTerm r))
          else if memory_type = "long_term" then
            (w1, .ok .longTermScheduled)
          else (w1, .ok (.fallthrough memory_type))

/-- PersistentMemoryService.get_memory_context: guests get empty memories;
otherwise read the row, degrading a missing row or a store failure to the
empty pair. -/
def get_memory_context (db : DbEnv) (w : World) (user_id robot_id : String) :
    String × String :=
  if user_id = "guest" then ("", "")
  else if ¬ db.readOk then ("", "")
  else
    match w.records (user_id, robot_id) with
    | none => ("", "")
    | some r => (r.short_term_memory, r.long_term_memory)

/-! ## vector_store.py -/

/-- One hit returned by search_similar_conversations: the score and the
stored exchange pulled out of the payload. -/
structure SimResult where
  score : ℚ
  user_message : String
  ai_response : String
deriving DecidableEq, Repr

/-- The embedding + vector backend as seen by VectorStore: whether it is
enabled, the embedding call (an empty vector models a failed call), the
in-process string hash, and the search oracle giving the scored hits for a
user-scoped query over the current points (an empty list also models a
search exception, which the code swallows). -/
structure VecEnv where
  enabled : Bool
  embed : String → List Int
  hashText : String → Nat
  search : List VPoint → String → String → Nat → List SimResult

/-- VectorStore.search_similar_conversations: disabled backends and failed
embeddings return the empty list, otherwise the user-scoped nearest
neighbours. -/
def search_similar_conversations (env : VecEnv) (points : List VPoint)
    (user_id query_text : String) (limit : Nat) : List SimResult :=
  if ¬ env.enabled then []
  else if env.embed query_text = [] then []
  else env.search points user_id query_text limit

/-- The retrieval text stored with each point. -/
def combined_text (user_message ai_response : String) : String :=
  "用户: " ++ user_message ++ "\nAI: " ++ ai_response

/-- The point id: hash(combined_text) reduced modulo 2^63. -/
def point_id (env : VecEnv) (t : String) : Nat :=
  env.hashText t % 2 ^ 63

/-- Qdrant upsert of one point: replace the point carrying the same id, or
append. -/
def upsert (points : List VPoint) (p : VPoint) : List VPoint :=
  if points.any (fun q => q.id = p.id) then
    points.map (fun q => if q.id = p.id then p else q)
  else points ++ [p]

/-- The point built by store_conversation: its id is the hash of the
combined text, its payload carries the user and the exchange. -/
def storedPoint (env : VecEnv) (user_id user_message ai_response : String) : VPoint :=
  { id := point_id env (combined_text user_message ai_response),
    vector := env.embed (combined_text user_message ai_response),
    payload_user_id := user_id,
    payload_user_message := user_message,
    payload_ai_response := ai_response }

/-- The tail of store_conversation after the dedup check: embed the combined
text (refusing on an empty embedding) and upsert the point. -/
def store_embed_and_upsert (env : VecEnv) (user_id user_message ai_response : String)
    (points : List VPoint) : Bool × List VPoint :=
  if env.embed (combined_text user_message ai_response) = [] then (false, points)
  else (true, upsert points (storedPoint env user_id user_message ai_response))

/-- VectorStore.store_conversation: disabled backends refuse; a top
self-similarity hit at or above 0.96 is treated as a duplicate and nothing
is written; a failed embedding refuses; otherwise the point (id = hash of
the combined text) is upserted and the call reports success. -/
def store_conversation (env : VecEnv) (user_id user_message ai_response : String)
    (points : List VPoint) : Bool × List VPoint :=
  if ¬ env.enabled then (false, points)
  else
    let ct := combined_text user_message ai_response
    let sims := search_similar_conversations env points user_id ct 1
    match sims.head? with
    | some top =>
      if top.score ≥ 96 / 100 then (false, points)
      else store_embed_and_upsert env user_id user_message ai_response points
    | none => store_embed_and_upsert env user_id user_message ai_response points

/-! ## core/dialogue_query.py -/

/-- One raw row of the dialogue query: SELECT message, text, create_time —
message is the user text, text the assistant text.  NULL columns are
modelled as the empty string, which is equally falsy in the code's
truthiness tests. -/
structure Row where
  message : String
  text : String
  create_time : Nat
deriving DecidableEq, Repr

/-- The per-timestamp accumulator built by _process_query_results. -/
structure Turn where
  user : String
  assistant : String
deriving DecidableEq, Repr

/-- Folding one raw row into the turn accumulated for its timestamp: a
non-empty user text overwrites, a non-empty assistant text is appended
with a single-space separator. -/
def mergeStep (t : Turn) (r : Row) : Turn :=
  { user := if r.message ≠ "" then r.message else t.user,
    assistant :=
      if r.text ≠ "" then
        if t.assistant ≠ "" then t.assistant ++ " " ++ r.text else r.text
      else t.assistant }

/-- Folding one raw row into temp_dict (an insertion-ordered association
list keyed by timestamp, as a Python dict is). -/
def upsertTurn (acc : List (Nat × Turn)) (r : Row) : List (Nat × Turn) :=
  if acc.any (fun p => p.1 = r.create_time) then
    acc.map (fun p => if p.1 = r.create_time then (p.1, mergeStep p.2 r) else p)
  else acc ++ [(r.create_time, mergeStep ⟨"", ""⟩ r)]

/-- The temp_dict loop of _process_query_results. -/
def buildTurns (rows : List Row) : List (Nat × Turn) :=
  rows.foldl upsertTurn []

/-- One chat message of the produced conversation format. -/
structure Msg where
  role : String
  content : String
deriving DecidableEq, Repr

/-- DialogueQuery._process_query_results: aggregate same-timestamp rows, sort
the timestamps (descending when reverse is set, as for the default
persona), keep the 7 most recent turns and emit the non-empty user and
assistant texts as messages. -/
def _process_query_results (rows : List Row) (reverse : Bool) : List Msg :=
  let dict := buildTurns rows
  let keys :=
    if reverse then (dict.map Prod.fst).insertionSort (· ≥ ·)
    else (dict.map Prod.fst).insertionSort (· ≤ ·)
  (keys.take 7).foldl (fun acc k =>
    match dict.lookup k with
    | none => acc
    | some t =>
      let acc := if t.user ≠ "" then acc ++ [⟨"user", t.user⟩] else acc
      if t.assistant ≠ "" then acc ++ [⟨"assistant", t.assistant⟩] else acc) []

/-! ## memory_service.py -/

/-- The dialogue-history backend as seen through DialogueQuery: whether the
store answers (query_with_retry succeeding), the windowed rows it returns
for the key, and the t_account nickname row. -/
structure HistEnv where
  ok : Bool
  rows : List Row
  nickname : Option String

/-- DialogueQuery._query_nickname: the account name, or the placeholder. -/
def queryNickname (env : HistEnv) : String :=
  env.nickname.getD "陌生人"

/-- DialogueQuery.get_user_pillow_dialogue_history: a store failure is caught
inside and degrades to no rows and the placeholder nickname. -/
def get_user_pillow_dialogue_history (env : HistEnv) : List Msg × String :=
  if env.ok then (_process_query_results env.rows true, queryNickname env)
  else ([], "陌生人")

/-- DialogueQuery.get_user_third_character_dialogue_history: no internal
catch; processed ascending (reverse=False). A store failure raises to the
caller, which MemoryService.get_short_term_memory handles. -/
def get_user_third_character_dialogue_history (env : HistEnv) : List Msg × String :=
  (_process_query_results env.rows false, queryNickname env)

/-- MemoryService.get_short_term_memory: guests get no history and the
default nickname; the default persona goes through the internally-caught
pillow query; other personas go through the third-character query whose
store failure is caught here with the same default. -/
def get_short_term_memory (env : HistEnv) (user_id character_id : String)
    (limit : Nat) : List Msg × String :=
  if user_id = "guest" then ([], "熟悉的人")
  else if character_id = "default" then
    let (h, n) := get_user_pillow_dialogue_history env
    (h.take limit, n)
  else if env.ok then
    let (h, n) := get_user_third_character_dialogue_history env
    (h.take limit, n)
  else ([], "熟悉的人")

/-- MemoryService.get_vector_memory: guests get nothing and no skip hint;
otherwise search, flag a top score at or above 0.96 as
should_skip_storage, and flatten each hit into a user and an assistant
message. -/
def get_vector_memory (env : VecEnv) (points : List VPoint)
    (user_id current_message : String) (limit : Nat) : List Msg × Bool :=
  if user_id = "guest" then ([], false)
  else
    let sims := search_similar_conversations env points user_id current_message limit
    let skip :=
      match sims.head? with
      | some top => top.score ≥ 96 / 100
      | none => false
    let msgs := sims.foldl (fun acc c =>
      acc ++ [⟨"user", c.user_message⟩, ⟨"assistant", c.ai_response⟩]) []
    (msgs, skip)

/-- MemoryService.get_persistent_memory: absent persistent-memory service
means empty memories, otherwise PersistentMemoryService.get_memory_context. -/
def get_persistent_memory (hasPersistent : Bool) (db : DbEnv) (w : World)
    (user_id character_id : String) : String × String :=
  if hasPersistent then get_memory_context db w user_id character_id
  else ("", "")

/-- MemoryService.get_combined_memory: fetch the dialogue history, the
persistent memories and the vector recalls, and assemble the message
sequence with the vector memories first. -/
def get_combined_memory (henv : HistEnv) (venv : VecEnv) (db : DbEnv)
    (hasPersistent : Bool) (w : World) (user_id current_message character_id : String)
    (conversation_history_limit vector_memory_limit : Nat) :
    List Msg × String × (String × String) × Bool :=
  let (conversation_history, nickname) :=
    get_short_term_memory henv user_id character_id conversation_history_limit
  let persistent := get_persistent_memory hasPersistent db w user_id character_id
  let (vector_memory, skip) :=
    get_vector_memory venv w.vectors user_id current_message vector_memory_limit
  (vector_memory ++ conversation_history, nickname, persistent, skip)

/-- The vector part of a save_conversation result. -/
inductive VecSaveOutcome where
  | saved (stored : Bool)
  | skippedHighSimilarity
deriving DecidableEq, Repr

/-- The result dictionary of save_conversation. -/
inductive SaveResult where
  | guest
  | results (persistent : Option ProcResult) (vector : Option VecSaveOutcome)
deriving DecidableEq, Repr

/-- The collaborators of one save_conversation call. -/
structure SaveEnv where
  proc : ProcEnv
  vec : VecEnv
  hasPersistent : Bool

/-- MemoryService.save_conversation: guests are refused outright; otherwise
the persistent path runs first (an exception there propagates — nothing
catches it), then the vector path stores unless the backend is disabled or
the caller flagged a near-duplicate. -/
def save_conversation (cfg : MemCfg) (env : SaveEnv)
    (user_id character_id user_message ai_response : String)
    (skip_vector_storage : Bool) (w : World) : World × Except PyErr SaveResult :=
  if user_id = "guest" then (w, .ok .guest)
  else
    let step1 : World × Except PyErr (Option ProcResult) :=
      if env.hasPersistent then
        let (w1, r) := process_conversation_memory cfg env.proc
          user_id character_id user_message ai_response w
        (w1, r.map some)
      else (w, .ok none)
    match step1 with
    | (w1, .error e) => (w1, .error e)
    | (w1, .ok p) =>
      if env.vec.enabled ∧ ¬ skip_vector_storage then
        let (stored, pts) := store_conversation env.vec user_id user_message
          ai_response w1.vectors
        ({ w1 with vectors := pts }, .ok (.results p (some (.saved stored))))
      else if skip_vector_storage then
        (w1, .ok (.results p (some .skippedHighSimilarity)))
      else (w1, .ok (.results p none))

/-! ## Projection lemmas for the world state -/

@[simp] theorem cacheAt_setCache_self (w : World) (k : String) (e : CacheEntry) :
    (w.setCache k e).cacheAt k = e := by
  simp [World.setCache]

@[simp] theorem records_setCache (w : World) (k : String) (e : CacheEntry) :
    (w.setCache k e).records = w.records := rfl

@[simp] theorem vectors_setCache (w : World) (k : String) (e : CacheEntry) :
    (w.setCache k e).vectors = w.vectors := rfl

@[simp] theorem cacheAt_setRecord (w : World) (u r : String) (rec : DbRecord) :
    (w.setRecord u r rec).cacheAt = w.cacheAt := rfl

@[simp] theorem records_setRecord_self (w : World) (u r : String) (rec : DbRecord) :
    (w.setRecord u r rec).records (u, r) = some rec := by
  simp [World.setRecord]

@[simp] theorem cacheAt_incCount (w : World) (u r : String) :
    (w.incCount u r).cacheAt = w.cacheAt := by
  unfold World.incCount
  cases w.records (u, r) <;> rfl

theorem records_incCount_self (w : World) (u r : String) (rec : DbRecord)
    (h : w.records (u, r) = some rec) :
    (w.incCount u r).records (u, r) =
      some { rec with conversation_count := rec.conversation_count + 1 } := by
  simp [World.incCount, h]

/-- The classifier's result dictionary never carries an "is_long" key: its
keys are memory_type, memory_content and reason in every branch. -/
theorem classify_lookup_is_long (llm : LlmResult) :
    (classify_memory_type llm).lookup "is_long" = none := by
  cases llm with
  | exn => rfl
  | ok v => cases v <;> rfl

/-- The "memory_type" entry of the classifier's result dictionary, in every
branch, is one of the three valid tags. -/
theorem classify_lookup_memory_type (llm : LlmResult) :
    ∃ mt, (classify_memory_type llm).lookup "memory_type" = some mt ∧
      (mt.eqStr "none" || mt.eqStr "short_term" || mt.eqStr "long_term") = true := by
  cases llm with
  | exn => exact ⟨.str "none", rfl, rfl⟩
  | ok v =>
    cases v with
    | obj fields =>
      by_cases h : ((jGetD fields "memory_type" (.str "none")).eqStr "none" ||
          (jGetD fields "memory_type" (.str "none")).eqStr "short_term" ||
          (jGetD fields "memory_type" (.str "none")).eqStr "long_term") = true
      · exact ⟨_, by simp [classify_memory_type, h, List.lookup], h⟩
      · exact ⟨.str "none", by simp [classify_memory_type, h, List.lookup], rfl⟩
    | str s => exact ⟨.str "none", rfl, rfl⟩
    | num n => exact ⟨.str "none", rfl, rfl⟩
    | bool b => exact ⟨.str "none", rfl, rfl⟩
    | null => exact ⟨.str "none", rfl, rfl⟩
    | arr items => exact ⟨.str "none", rfl, rfl⟩

/-! ## Claims -/

/-- C3: long-term consolidation is total — for every existing entry list of
length at most 5 and every new fact, _summarize_memories yields a list of at
most 5 time/content entries whatever the LLM does, and when the LLM raises
or replies with anything but a JSON list, the result is exactly the
deterministic fallback: append the new timestamped fact and keep the last 5
entries. -/
theorem consolidation_total (llm : LlmResult) (existing : List MemEntry)
    (newM : MemEntry) (hlen : existing.length ≤ 5) :
    (_summarize_memories llm existing newM).length ≤ 5 ∧
      ((∀ items, llm ≠ .ok (.arr items)) →
        _summarize_memories llm existing newM = lastN 5 (existing ++ [newM])) := by
  constructor
  · match llm with
    | .exn => simp [_summarize_memories, fallbackMerge, lastN]; omega
    | .ok (.arr items) => simp [_summarize_memories]
    | .ok (.str s) | .ok (.num n) | .ok (.bool b) | .ok .null | .ok (.obj f) =>
      simp [_summarize_memories, fallbackMerge, lastN]; omega
  · intro hne
    match llm with
    | .exn => rfl
    | .ok (.arr items) => exact absurd rfl (hne items)
    | .ok (.str s) | .ok (.num n) | .ok (.bool b) | .ok .null | .ok (.obj f) => rfl

/-- Witness for C3 at a concrete 5-entry list and an exception outcome. -/
theorem consolidation_total_witness :
    (_summarize_memories .exn
        [⟨"d1", "a"⟩, ⟨"d2", "b"⟩, ⟨"d3", "c"⟩, ⟨"d4", "d"⟩, ⟨"d5", "e"⟩]
        ⟨"d6", "f"⟩).length ≤ 5 ∧
      _summarize_memories .exn
        [⟨"d1", "a"⟩, ⟨"d2", "b"⟩, ⟨"d3", "c"⟩, ⟨"d4", "d"⟩, ⟨"d5", "e"⟩]
        ⟨"d6", "f"⟩ =
        lastN 5 ([⟨"d1", "a"⟩, ⟨"d2", "b"⟩, ⟨"d3", "c"⟩, ⟨"d4", "d"⟩, ⟨"d5", "e"⟩] ++
          [⟨"d6", "f"⟩]) := by
  have h := consolidation_total .exn
    [⟨"d1", "a"⟩, ⟨"d2", "b"⟩, ⟨"d3", "c"⟩, ⟨"d4", "d"⟩, ⟨"d5", "e"⟩]
    ⟨"d6", "f"⟩ (by simp)
  exact ⟨h.1, h.2 (fun items hc => LlmResult.noConfusion hc)⟩

/-- C9: the combined context puts every vector-recall message before every
chronological dialogue-history message — the assembled sequence is exactly
the vector messages followed by the history messages. -/
theorem context_ordering (henv : HistEnv) (venv : VecEnv) (db : DbEnv)
    (hasPersistent : Bool) (w : World) (user_id current_message character_id : String)
    (hlimit vlimit : Nat) :
    (get_combined_memory henv venv db hasPersistent w user_id current_message
        character_id hlimit vlimit).1 =
      (get_vector_memory venv w.vectors user_id current_message vlimit).1 ++
        (get_short_term_memory henv user_id character_id hlimit).1 := by
  unfold get_combined_memory
  rcases hh : get_short_term_memory henv user_id character_id hlimit with ⟨hist, nick⟩
  rcases hv : get_vector_memory venv w.vectors user_id current_message vlimit with ⟨vm, skip⟩
  simp [hh, hv]

/-- C10: for the reserved user id "guest" every public memory operation is a
fixed no-op, independent of every backend and of the stored state: the
dialogue-history read yields no turns and the default nickname, vector
recall yields no matches and no skip hint, the persistent read yields empty
memories, and the save path returns the not-saved result with the world
untouched. -/
theorem guest_noop (henv : HistEnv) (venv : VecEnv) (db : DbEnv) (w : World)
    (cfg : MemCfg) (senv : SaveEnv) (character_id user_message ai_response : String)
    (limit vlimit : Nat) (skip : Bool) :
    get_short_term_memory henv "guest" character_id limit = ([], "熟悉的人") ∧
    get_vector_memory venv w.vectors "guest" user_message vlimit = ([], false) ∧
    get_memory_context db w "guest" character_id = ("", "") ∧
    save_conversation cfg senv "guest" character_id user_message ai_response skip w =
      (w, .ok .guest) := by
  refine ⟨?_, ?_, ?_, ?_⟩ <;> simp [get_short_term_memory, get_vector_memory,
    get_memory_context, save_conversation]

/-- C1: the post-reply save path does not degrade — for every non-guest,
memory-enabled input whose memory record is in place, both
process_conversation_memory and save_conversation raise KeyError("is_long")
to their caller, whatever the classifier's LLM replies: the subscript
classification["is_long"] sits outside every try/except while
classify_memory_type only ever returns the keys memory_type, memory_content
and reason. -/
theorem save_path_raises (cfg : MemCfg) (env : SaveEnv)
    (user_id character_id user_message ai_response : String) (w : World)
    (skip : Bool) (rec : DbRecord)
    (hen : is_memory_enabled cfg character_id = true)
    (hng : user_id ≠ "guest")
    (hread : env.proc.db.readOk = true)
    (hrec : w.records (user_id, character_id) = some rec)
    (hp : env.hasPersistent = true) :
    (process_conversation_memory cfg env.proc user_id character_id user_message
        ai_response w).2 = .error (.keyError "is_long") ∧
    (save_conversation cfg env user_id character_id user_message ai_response
        skip w).2 = .error (.keyError "is_long") := by
  have hproc : process_conversation_memory cfg env.proc user_id character_id
      user_message ai_response w = (w, .error (.keyError "is_long")) := by
    unfold process_conversation_memory
    simp [hen, hng, hread, hrec, dictGet, classify_lookup_is_long]
  refine ⟨by rw [hproc], ?_⟩
  unfold save_conversation
  simp [hng, hp, hproc, Except.map]

/-- Witness for C1 at a concrete user, character, world and environment. -/
theorem save_path_raises_witness :
    (process_conversation_memory MemCfg.default
        ⟨⟨true, true⟩, .exn, "2026-10-12"⟩ "u1" "c1" "hi" "hello"
        ⟨fun p => if p = ("u1", "c1") then some ⟨"", "", 0⟩ else none,
          fun _ => CacheEntry.empty, []⟩).2 = .error (.keyError "is_long") ∧
    (save_conversation MemCfg.default
        ⟨⟨⟨true, true⟩, .exn, "2026-10-12"⟩,
          ⟨false, fun _ => [], fun _ => 0, fun _ _ _ _ => []⟩, true⟩
        "u1" "c1" "hi" "hello" false
        ⟨fun p => if p = ("u1", "c1") then some ⟨"", "", 0⟩ else none,
          fun _ => CacheEntry.empty, []⟩).2 = .error (.keyError "is_long") := by
  have h := save_path_raises MemCfg.default
    ⟨⟨⟨true, true⟩, .exn, "2026-10-12"⟩,
      ⟨false, fun _ => [], fun _ => 0, fun _ _ _ _ => []⟩, true⟩
    "u1" "c1" "hi" "hello"
    ⟨fun p => if p = ("u1", "c1") then some ⟨"", "", 0⟩ else none,
      fun _ => CacheEntry.empty, []⟩
    false ⟨"", "", 0⟩ rfl (by decide) rfl (by simp) rfl
  exact h

/-- C4: the classifier itself degrades to tag "none" when the LLM raises,
returns a non-object reply, or returns a tag outside the closed set — but
the save path then raises KeyError("is_long") before touching the durable
conversation_count, leaving the world unchanged, instead of incrementing it
exactly once. -/
theorem classifier_failsafe_vs_count (cfg : MemCfg) (env : ProcEnv)
    (user_id character_id user_message ai_response : String) (w : World)
    (rec : DbRecord)
    (hen : is_memory_enabled cfg character_id = true)
    (hng : user_id ≠ "guest")
    (hread : env.db.readOk = true)
    (hrec : w.records (user_id, character_id) = some rec) :
    (classify_memory_type .exn).lookup "memory_type" = some (.str "none") ∧
    (∀ v : JVal, (∀ fields, v ≠ .obj fields) →
      (classify_memory_type (.ok v)).lookup "memory_type" = some (.str "none")) ∧
    (∀ fields, ((jGetD fields "memory_type" (.str "none")).eqStr "none" ||
        (jGetD fields "memory_type" (.str "none")).eqStr "short_term" ||
        (jGetD fields "memory_type" (.str "none")).eqStr "long_term") = false →
      (classify_memory_type (.ok (.obj fields))).lookup "memory_type" =
        some (.str "none")) ∧
    process_conversation_memory cfg env user_id character_id user_message
        ai_response w = (w, .error (.keyError "is_long")) := by
  refine ⟨rfl, ?_, ?_, ?_⟩
  · intro v hv
    match v with
    | .str s | .num n | .bool b | .null | .arr items => rfl
    | .obj fields => exact absurd rfl (hv fields)
  · intro fields hf
    simp [classify_memory_type, hf, List.lookup]
  · unfold process_conversation_memory
    simp [hen, hng, hread, hrec, dictGet, classify_lookup_is_long]

/-- Witness for C4 at a concrete environment whose classifier LLM raises. -/
theorem classifier_failsafe_vs_count_witness :
    (classify_memory_type .exn).lookup "memory_type" = some (.str "none") ∧
    process_conversation_memory MemCfg.default ⟨⟨true, true⟩, .exn, "2026-10-12"⟩
        "u1" "c1" "hi" "hello"
        ⟨fun p => if p = ("u1", "c1") then some ⟨"", "", 0⟩ else none,
          fun _ => CacheEntry.empty, []⟩ =
      (⟨fun p => if p = ("u1", "c1") then some ⟨"", "", 0⟩ else none,
          fun _ => CacheEntry.empty, []⟩, .error (.keyError "is_long")) := by
  have h := classifier_failsafe_vs_count MemCfg.default
    ⟨⟨true, true⟩, .exn, "2026-10-12"⟩ "u1" "c1" "hi" "hello"
    ⟨fun p => if p = ("u1", "c1") then some ⟨"", "", 0⟩ else none,
      fun _ => CacheEntry.empty, []⟩
    ⟨"", "", 0⟩ rfl (by decide) rfl (by simp)
  exact ⟨h.1, h.2.2.2⟩

/-! ## Vector-store lemmas -/

/-- The number of points in the index carrying a given id. -/
def countId (points : List VPoint) (i : Nat) : Nat :=
  (points.filter (fun p => p.id = i)).length

theorem countId_map_replace (points : List VPoint) (p : VPoint) :
    countId (points.map (fun q => if q.id = p.id then p else q)) p.id =
      countId points p.id := by
  induction points with
  | nil => rfl
  | cons q qs ih =>
    by_cases hq : q.id = p.id <;>
      simp [countId, List.filter_cons, hq] at ih ⊢ <;> omega

theorem upsert_countId (points : List VPoint) (p : VPoint)
    (h : countId points p.id ≤ 1) : countId (upsert points p) p.id = 1 := by
  unfold upsert
  by_cases hany : points.any (fun q => q.id = p.id) = true
  · rw [if_pos hany, countId_map_replace]
    rcases List.any_eq_true.mp hany with ⟨q, hq, hid⟩
    have hmem : q ∈ points.filter (fun r => r.id = p.id) :=
      List.mem_filter.mpr ⟨hq, hid⟩
    have hpos : 0 < countId points p.id :=
      List.length_pos.mpr (List.ne_nil_of_mem hmem)
    omega
  · rw [if_neg hany]
    have hnone : ∀ q ∈ points, ¬ q.id = p.id := by
      intro q hq hid
      exact hany (List.any_eq_true.mpr ⟨q, hq, by simpa using hid⟩)
    have hzero : points.filter (fun r => r.id = p.id) = [] := by
      rw [List.filter_eq_nil_iff]
      intro q hq
      simpa using hnone q hq
    simp [countId, List.filter_append, hzero]

theorem mem_upsert_self (points : List VPoint) (p : VPoint) :
    p ∈ upsert points p := by
  unfold upsert
  by_cases hany : points.any (fun q => q.id = p.id) = true
  · rw [if_pos hany]
    rcases List.any_eq_true.mp hany with ⟨q, hq, hid⟩
    exact List.mem_map.mpr ⟨q, hq, by simp at hid; simp [hid]⟩
  · rw [if_neg hany]; simp

/-- Every store_conversation call either refuses and leaves the index alone,
or reports success and upserts exactly the deterministic point. -/
theorem store_cases (env : VecEnv) (user_id um ar : String) (points : List VPoint) :
    store_conversation env user_id um ar points = (false, points) ∨
    store_conversation env user_id um ar points =
      (true, upsert points (storedPoint env user_id um ar)) := by
  unfold store_conversation store_embed_and_upsert
  by_cases he : env.enabled = true
  · simp only [he, not_true, if_false, ite_false, Bool.not_true]
    cases hh : (search_similar_conversations env points user_id
        (combined_text um ar) 1).head? with
    | none =>
      by_cases hv : env.embed (combined_text um ar) = []
      · left; simp [hh, hv]
      · right; simp [hh, hv]
    | some top =>
      by_cases hs : top.score ≥ 96 / 100
      · left; simp [hh, hs]
      · by_cases hv : env.embed (combined_text um ar) = []
        · left; simp [hh, hs, hv]
        · right; simp [hh, hs, hv]
  · left; simp [he]

/-- C5: the dedup policy of store_conversation — with the backend enabled,
when the top self-similarity hit scores at or above 0.96 the call returns
false and writes nothing, and when it scores below 0.96 and the embedding
backend is operative the point is stored and the call returns true. -/
theorem dedup_skip (env : VecEnv) (user_id um ar : String) (points : List VPoint)
    (top : SimResult)
    (hen : env.enabled = true)
    (htop : (search_similar_conversations env points user_id
        (combined_text um ar) 1).head? = some top) :
    (top.score ≥ 96 / 100 →
      store_conversation env user_id um ar points = (false, points)) ∧
    (top.score < 96 / 100 → env.embed (combined_text um ar) ≠ [] →
      (store_conversation env user_id um ar points).1 = true ∧
      storedPoint env user_id um ar ∈
        (store_conversation env user_id um ar points).2) := by
  constructor
  · intro hs
    unfold store_conversation
    simp [hen, htop, hs]
  · intro hs hemb
    have hstore : store_conversation env user_id um ar points =
        store_embed_and_upsert env user_id um ar points := by
      unfold store_conversation
      simp [hen, htop, not_le.mpr hs]
    rw [hstore]
    unfold store_embed_and_upsert
    rw [if_neg hemb]
    exact ⟨rfl, mem_upsert_self _ _⟩

/-- A backend whose nearest-neighbour search reports a 0.97 top score. -/
def vecEnvHigh : VecEnv :=
  ⟨true, fun _ => [1], fun _ => 7, fun _ _ _ _ => [⟨97 / 100, "m", "r"⟩]⟩

/-- A backend whose nearest-neighbour search reports a 0.95 top score. -/
def vecEnvLow : VecEnv :=
  ⟨true, fun _ => [1], fun _ => 7, fun _ _ _ _ => [⟨95 / 100, "m", "r"⟩]⟩

/-- Witness for C5: at score 0.97 the call refuses and writes nothing, at
0.95 it stores the point and returns true. -/
theorem dedup_skip_witness :
    store_conversation vecEnvHigh "u" "m" "r" [] = (false, []) ∧
    (store_conversation vecEnvLow "u" "m" "r" []).1 = true ∧
    storedPoint vecEnvLow "u" "m" "r" ∈ (store_conversation vecEnvLow "u" "m" "r" []).2 := by
  have hhigh := dedup_skip vecEnvHigh "u" "m" "r" [] ⟨97 / 100, "m", "r"⟩ rfl
    (by simp [search_similar_conversations, vecEnvHigh])
  have hlow := dedup_skip vecEnvLow "u" "m" "r" [] ⟨95 / 100, "m", "r"⟩ rfl
    (by simp [search_similar_conversations, vecEnvLow])
  exact ⟨hhigh.1 (by norm_num), hlow.2 (by norm_num) (by simp [vecEnvLow])⟩

/-- C6: storing the same exchange twice yields exactly one stored point —
the id is the deterministic hash of the combined text and the write is an
upsert keyed by it, so whenever the first store succeeds, a repeated store
leaves exactly one point under that id. -/
theorem vector_store_idempotent (env : VecEnv) (user_id um ar : String)
    (points : List VPoint)
    (huniq : countId points (point_id env (combined_text um ar)) ≤ 1)
    (h1 : (store_conversation env user_id um ar points).1 = true) :
    countId (store_conversation env user_id um ar
        (store_conversation env user_id um ar points).2).2
      (point_id env (combined_text um ar)) = 1 := by
  have hid : (storedPoint env user_id um ar).id = point_id env (combined_text um ar) := rfl
  rcases store_cases env user_id um ar points with hc | hc
  · rw [hc] at h1; exact absurd h1 (by simp)
  · rw [hc]
    have hcount1 : countId (upsert points (storedPoint env user_id um ar))
        (point_id env (combined_text um ar)) = 1 := by
      rw [← hid] at huniq ⊢
      exact upsert_countId _ _ huniq
    rcases store_cases env user_id um ar
        (upsert points (storedPoint env user_id um ar)) with hc2 | hc2 <;> rw [hc2]
    · exact hcount1
    · rw [← hid] at hcount1 ⊢
      exact upsert_countId _ _ (le_of_eq hcount1)

/-- A backend that never reports a similar neighbour. -/
def vecEnvFree : VecEnv :=
  ⟨true, fun _ => [1], fun _ => 7, fun _ _ _ _ => []⟩

/-- Witness for C6: storing the same exchange twice into an empty index via a
backend with no similar neighbours leaves exactly one point. -/
theorem vector_store_idempotent_witness :
    countId (store_conversation vecEnvFree "u" "m" "r"
        (store_conversation vecEnvFree "u" "m" "r" []).2).2
      (point_id vecEnvFree (combined_text "m" "r")) = 1 := by
  exact vector_store_idempotent vecEnvFree "u" "m" "r" []
    (by simp [countId]) (by simp [store_conversation, store_embed_and_upsert,
      search_similar_conversations, vecEnvFree])

/-! ## Short-term flush lemmas -/

/-- The short_term_memory text written by a flush: the stamped new memories
appended to the existing text, capped to the last 5000 characters. -/
def flushedText (today existing : String) (mems : List String) : String :=
  capTail (if existing ≠ "" then
    existing ++ "\n" ++
      String.intercalate "\n" (mems.map (fun m => "[" ++ today ++ "] " ++ m))
  else String.intercalate "\n" (mems.map (fun m => "[" ++ today ++ "] " ++ m)))

/-- A healthy relational store. -/
def dbOkEnv : DbEnv := ⟨true, true⟩

/-- One below-threshold accept: the snippet is appended to the cache, the
round counter bumped, the durable counter incremented, and the cached
status returned. -/
theorem handle_below (today u r s : String) (w : World) (e : CacheEntry)
    (hc : w.cacheAt (cacheKey u r) = e)
    (hlt : e.count + 1 < 7) :
    _handle_short_term_memory 7 dbOkEnv today u r s w =
      ((w.setCache (cacheKey u r)
          { e with memories := e.memories ++ [s], count := e.count + 1 }).incCount u r,
        .cached (e.memories.length + 1) (7 - (e.count + 1))) := by
  unfold _handle_short_term_memory
  simp only [hc]
  rw [if_neg (by omega)]
  simp [dbOkEnv]

/-- One threshold accept: the snippet joins the cache, the flush fires, the
row is written with the counter bumped by the flushed count, and the cache
entry is reset. -/
theorem handle_flush (today u r s : String) (w : World) (e : CacheEntry)
    (rec : DbRecord)
    (hc : w.cacheAt (cacheKey u r) = e)
    (hr : w.records (u, r) = some rec)
    (hge : e.count + 1 ≥ 7) :
    _handle_short_term_memory 7 dbOkEnv today u r s w =
      (((w.setCache (cacheKey u r)
            { e with memories := e.memories ++ [s], count := e.count + 1 }).setRecord u r
          { short_term_memory := flushedText today rec.short_term_memory (e.memories ++ [s]),
            long_term_memory := rec.long_term_memory,
            conversation_count := rec.conversation_count + (e.memories.length + 1) }).setCache
          (cacheKey u r) CacheEntry.empty,
        .flushed (e.memories.length + 1)) := by
  unfold _handle_short_term_memory
  simp only [hc]
  rw [if_pos (by omega)]
  unfold _flush_short_term_cache
  simp [dbOkEnv, hr, flushedText]

/-- The expected cached statuses of a below-threshold accept run starting at
round counter c. -/
def cachedRun (c k : Nat) : List STResult :=
  match k with
  | 0 => []
  | k + 1 => .cached (c + 1) (7 - (c + 1)) :: cachedRun (c + 1) k

/-- A sequence of accepted short-term snippets for one (user, persona) key
against a healthy store. -/
def acceptRounds (today u r : String) (snips : List String) (w : World) :
    World × List STResult :=
  match snips with
  | [] => (w, [])
  | s :: rest =>
    let next := _handle_short_term_memory 7 dbOkEnv today u r s w
    let tail := acceptRounds today u r rest next.1
    (tail.1, next.2 :: tail.2)

theorem acceptRounds_one (today u r s : String) (w : World) :
    acceptRounds today u r [s] w =
      ((_handle_short_term_memory 7 dbOkEnv today u r s w).1,
        [(_handle_short_term_memory 7 dbOkEnv today u r s w).2]) := rfl

theorem acceptRounds_append (today u r : String) (l1 l2 : List String) (w : World) :
    acceptRounds today u r (l1 ++ l2) w =
      ((acceptRounds today u r l2 (acceptRounds today u r l1 w).1).1,
        (acceptRounds today u r l1 w).2 ++
          (acceptRounds today u r l2 (acceptRounds today u r l1 w).1).2) := by
  induction l1 generalizing w with
  | nil => simp [acceptRounds]
  | cons s rest ih => simp [acceptRounds, ih]

/-- A run of accepts that stays below the threshold: every accept returns a
cached status with the pending count and the remaining rounds, the snippets
pile up in the cache, and the durable conversation_count advances by one
per accept. -/
theorem acceptRounds_props (today u r : String) (snips : List String) (w : World)
    (e : CacheEntry) (rec : DbRecord)
    (hc : w.cacheAt (cacheKey u r) = e)
    (hr : w.records (u, r) = some rec)
    (hhi : e.count + snips.length < 7)
    (hlen : e.memories.length = e.count) :
    (acceptRounds today u r snips w).2 = cachedRun e.count snips.length ∧
    (acceptRounds today u r snips w).1.cacheAt (cacheKey u r) =
      ⟨e.memories ++ snips, e.count + snips.length, e.dialogues⟩ ∧
    (acceptRounds today u r snips w).1.records (u, r) =
      some { rec with conversation_count := rec.conversation_count + snips.length } := by
  induction snips generalizing w e rec with
  | nil =>
    refine ⟨rfl, ?_, ?_⟩
    · simpa [acceptRounds, cachedRun] using hc
    · simpa [acceptRounds] using hr
  | cons s rest ih =>
    have hstep := handle_below today u r s w e hc (by simp at hhi; omega)
    have hc1 : ((w.setCache (cacheKey u r)
        { e with memories := e.memories ++ [s], count := e.count + 1 }).incCount u r).cacheAt
          (cacheKey u r) =
        { e with memories := e.memories ++ [s], count := e.count + 1 } := by
      simp
    have hr1 : ((w.setCache (cacheKey u r)
        { e with memories := e.memories ++ [s], count := e.count + 1 }).incCount u r).records
          (u, r) = some { rec with conversation_count := rec.conversation_count + 1 } := by
      exact records_incCount_self _ u r rec (by simpa using hr)
    have htail := ih _ _ _ hc1 hr1 (by simp at hhi ⊢; omega) (by simp [hlen])
    refine ⟨?_, ?_, ?_⟩
    · simp only [acceptRounds, hstep]
      simp only [htail.1]
      simp [cachedRun, hlen]
    · simp only [acceptRounds, hstep]
      simp only [htail.2.1]
      simp; omega
    · simp only [acceptRounds, hstep]
      simp only [htail.2.2]
      simp [Nat.add_assoc]
      omega

/-- C2: after exactly 7 accepted short-term snippets for a key the flush
fires exactly once — accepts 1 to 6 only cache the snippet, bump the
durable conversation_count and report the remaining rounds, accept 7
flushes, and accept 8 starts a fresh cycle with counter 1 and exactly that
snippet pending. -/
theorem flush_threshold (today u r s1 s2 s3 s4 s5 s6 s7 s8 : String)
    (w0 : World) (rec : DbRecord)
    (hc : w0.cacheAt (cacheKey u r) = CacheEntry.empty)
    (hr : w0.records (u, r) = some rec) :
    (acceptRounds today u r [s1, s2, s3, s4, s5, s6, s7, s8] w0).2 =
      [.cached 1 6, .cached 2 5, .cached 3 4, .cached 4 3, .cached 5 2, .cached 6 1,
       .flushed 7, .cached 1 6] ∧
    (acceptRounds today u r [s1, s2, s3, s4, s5, s6, s7] w0).1.cacheAt (cacheKey u r) =
      CacheEntry.empty ∧
    (acceptRounds today u r [s1, s2, s3, s4, s5, s6, s7, s8] w0).1.cacheAt (cacheKey u r) =
      { memories := [s8], count := 1, dialogues := [] } ∧
    ((acceptRounds today u r [s1, s2, s3, s4, s5, s6, s7, s8] w0).1.records (u, r)).map
      DbRecord.conversation_count = some (rec.conversation_count + 14) := by
  obtain ⟨hres6, hcache6, hrec6⟩ :=
    acceptRounds_props today u r [s1, s2, s3, s4, s5, s6] w0 CacheEntry.empty rec
      hc hr (by norm_num [CacheEntry.empty]) rfl
  have h7 := handle_flush today u r s7
    (acceptRounds today u r [s1, s2, s3, s4, s5, s6] w0).1
    ⟨[s1, s2, s3, s4, s5, s6], 6, []⟩
    { rec with conversation_count := rec.conversation_count + 6 }
    (by simpa [CacheEntry.empty] using hcache6) (by simpa using hrec6) (by simp)
  have h7n : _handle_short_term_memory 7 dbOkEnv today u r s7
      (acceptRounds today u r [s1, s2, s3, s4, s5, s6] w0).1 =
      ((((acceptRounds today u r [s1, s2, s3, s4, s5, s6] w0).1.setCache (cacheKey u r)
          ⟨[s1, s2, s3, s4, s5, s6, s7], 7, []⟩).setRecord u r
          ⟨flushedText today rec.short_term_memory [s1, s2, s3, s4, s5, s6, s7],
            rec.long_term_memory, rec.conversation_count + 6 + 7⟩).setCache
          (cacheKey u r) CacheEntry.empty,
        .flushed 7) := by
    rw [h7]; rfl
  obtain ⟨hres8, hcache8, hrec8⟩ :=
    acceptRounds_props today u r [s8]
      ((((acceptRounds today u r [s1, s2, s3, s4, s5, s6] w0).1.setCache (cacheKey u r)
          ⟨[s1, s2, s3, s4, s5, s6, s7], 7, []⟩).setRecord u r
          ⟨flushedText today rec.short_term_memory [s1, s2, s3, s4, s5, s6, s7],
            rec.long_term_memory, rec.conversation_count + 6 + 7⟩).setCache
          (cacheKey u r) CacheEntry.empty)
      CacheEntry.empty
      ⟨flushedText today rec.short_term_memory [s1, s2, s3, s4, s5, s6, s7],
        rec.long_term_memory, rec.conversation_count + 6 + 7⟩
      (by simp) (by simp) (by norm_num [CacheEntry.empty]) rfl
  have hstep7 : acceptRounds today u r [s7]
      (acceptRounds today u r [s1, s2, s3, s4, s5, s6] w0).1 =
      ((((acceptRounds today u r [s1, s2, s3, s4, s5, s6] w0).1.setCache (cacheKey u r)
          ⟨[s1, s2, s3, s4, s5, s6, s7], 7, []⟩).setRecord u r
          ⟨flushedText today rec.short_term_memory [s1, s2, s3, s4, s5, s6, s7],
            rec.long_term_memory, rec.conversation_count + 6 + 7⟩).setCache
          (cacheKey u r) CacheEntry.empty,
        [.flushed 7]) := by
    rw [acceptRounds_one, h7n]
  have hrun7 : acceptRounds today u r [s1, s2, s3, s4, s5, s6, s7] w0 =
      ((((acceptRounds today u r [s1, s2, s3, s4, s5, s6] w0).1.setCache (cacheKey u r)
          ⟨[s1, s2, s3, s4, s5, s6, s7], 7, []⟩).setRecord u r
          ⟨flushedText today rec.short_term_memory [s1, s2, s3, s4, s5, s6, s7],
            rec.long_term_memory, rec.conversation_count + 6 + 7⟩).setCache
          (cacheKey u r) CacheEntry.empty,
        cachedRun 0 6 ++ [.flushed 7]) := by
    have hsplit : acceptRounds today u r [s1, s2, s3, s4, s5, s6, s7] w0 =
        acceptRounds today u r ([s1, s2, s3, s4, s5, s6] ++ [s7]) w0 := rfl
    rw [hsplit, acceptRounds_append, hstep7, hres6]; rfl
  have hrun8 : acceptRounds today u r [s1, s2, s3, s4, s5, s6, s7, s8] w0 =
      ((acceptRounds today u r [s8]
          (acceptRounds today u r [s1, s2, s3, s4, s5, s6, s7] w0).1).1,
        (acceptRounds today u r [s1, s2, s3, s4, s5, s6, s7] w0).2 ++
          (acceptRounds today u r [s8]
            (acceptRounds today u r [s1, s2, s3, s4, s5, s6, s7] w0).1).2) :=
    acceptRounds_append today u r [s1, s2, s3, s4, s5, s6, s7] [s8] w0
  refine ⟨?_, ?_, ?_, ?_⟩
  · rw [hrun8, hrun7]
    dsimp only
    rw [hres8]
    simp [cachedRun, CacheEntry.empty]
  · rw [hrun7]
    simp
  · rw [hrun8, hrun7]
    dsimp only
    rw [hcache8]
    simp [CacheEntry.empty]
  · rw [hrun8, hrun7]
    dsimp only
    rw [hrec8]
    simp

/-- A world holding one memory record with counter 0 and an empty cache. -/
def w0Witness : World :=
  ⟨fun p => if p = ("u", "c") then some ⟨"", "", 0⟩ else none,
    fun _ => CacheEntry.empty, []⟩

/-- Witness for C2: a concrete 8-snippet run from an empty cache. -/
theorem flush_threshold_witness :
    (acceptRounds "d" "u" "c" ["a1", "a2", "a3", "a4", "a5", "a6", "a7", "a8"]
        w0Witness).2 =
      [.cached 1 6, .cached 2 5, .cached 3 4, .cached 4 3, .cached 5 2, .cached 6 1,
       .flushed 7, .cached 1 6] ∧
    (acceptRounds "d" "u" "c" ["a1", "a2", "a3", "a4", "a5", "a6", "a7"]
        w0Witness).1.cacheAt (cacheKey "u" "c") = CacheEntry.empty ∧
    (acceptRounds "d" "u" "c" ["a1", "a2", "a3", "a4", "a5", "a6", "a7", "a8"]
        w0Witness).1.cacheAt (cacheKey "u" "c") =
      { memories := ["a8"], count := 1, dialogues := [] } ∧
    ((acceptRounds "d" "u" "c" ["a1", "a2", "a3", "a4", "a5", "a6", "a7", "a8"]
        w0Witness).1.records ("u", "c")).map DbRecord.conversation_count = some 14 := by
  simpa using flush_threshold "d" "u" "c" "a1" "a2" "a3" "a4" "a5" "a6" "a7" "a8"
    w0Witness ⟨"", "", 0⟩ rfl (by simp [w0Witness])

/-- C7: the flush's database write and cache reset behave as one logical
step — with the record present and pending snippets cached, a healthy
read and write produce exactly the written row together with the reset
cache entry, while a failed read or write leaves the whole state (pending
snippets and counter included) unchanged. -/
theorem flush_atomic (db : DbEnv) (today u r : String) (w : World) (rec : DbRecord)
    (hmem : (w.cacheAt (cacheKey u r)).memories ≠ [])
    (hrec : w.records (u, r) = some rec) :
    (db.readOk = true → db.writeOk = true →
      _flush_short_term_cache db today u r w =
        ((w.setRecord u r
            { short_term_memory :=
                flushedText today rec.short_term_memory (w.cacheAt (cacheKey u r)).memories,
              long_term_memory := rec.long_term_memory,
              conversation_count :=
                rec.conversation_count + (w.cacheAt (cacheKey u r)).memories.length }).setCache
            (cacheKey u r) CacheEntry.empty,
          .flushed (w.cacheAt (cacheKey u r)).memories.length)) ∧
    ((db.readOk = false ∨ db.writeOk = false) →
      _flush_short_term_cache db today u r w = (w, .flushError)) := by
  constructor
  · intro hro hwo
    unfold _flush_short_term_cache
    simp [hmem, hro, hwo, hrec, flushedText]
  · intro hfail
    unfold _flush_short_term_cache
    rcases hfail with hro | hwo
    · simp [hmem, hro]
    · cases hro : db.readOk with
      | false => simp [hmem, hro]
      | true => simp [hmem, hro, hwo, hrec]

/-- A world holding one record and two pending short-term snippets. -/
def wFlushWitness : World :=
  ⟨fun p => if p = ("u", "c") then some ⟨"old", "", 3⟩ else none,
    fun k => if k = "u:c" then ⟨["m1", "m2"], 2, []⟩ else CacheEntry.empty, []⟩

/-- Witness for C7: a healthy flush writes and resets; a write failure
leaves the world untouched. -/
theorem flush_atomic_witness :
    _flush_short_term_cache ⟨true, true⟩ "d" "u" "c" wFlushWitness =
      ((wFlushWitness.setRecord "u" "c"
          { short_term_memory := flushedText "d" "old" ["m1", "m2"],
            long_term_memory := "",
            conversation_count := 5 }).setCache (cacheKey "u" "c") CacheEntry.empty,
        .flushed 2) ∧
    _flush_short_term_cache ⟨true, false⟩ "d" "u" "c" wFlushWitness =
      (wFlushWitness, .flushError) := by
  have hok := (flush_atomic ⟨true, true⟩ "d" "u" "c" wFlushWitness ⟨"old", "", 3⟩
    (by simp [wFlushWitness, cacheKey]) (by simp [wFlushWitness])).1 rfl rfl
  have hbad := (flush_atomic ⟨true, false⟩ "d" "u" "c" wFlushWitness ⟨"old", "", 3⟩
    (by simp [wFlushWitness, cacheKey]) (by simp [wFlushWitness])).2 (Or.inr rfl)
  constructor
  · rw [hok]
    simp [wFlushWitness, cacheKey]
  · exact hbad

/-! ## Aggregation lemmas for dialogue_query -/

/-- Single-space concatenation of a list of texts. -/
def joinSp : List String → String
  | [] => ""
  | [x] => x
  | x :: y :: xs => x ++ " " ++ joinSp (y :: xs)

/-- The last non-empty user text of a row group (empty when none). -/
def lastNonEmptyUser (rows : List Row) : String :=
  ((rows.filter (fun r => r.message ≠ "")).map Row.message).getLastD ""

/-- The non-empty assistant texts of a row group, joined by single spaces. -/
def joinedAssistant (rows : List Row) : String :=
  joinSp ((rows.filter (fun r => r.text ≠ "")).map Row.text)

/-- The assistant-side accumulation step of mergeStep, on bare texts. -/
def stepA (a x : String) : String :=
  if a ≠ "" then a ++ " " ++ x else x

theorem joinSp_cons_append (a x : String) (xs : List String) :
    joinSp ((a ++ " " ++ x) :: xs) = a ++ " " ++ joinSp (x :: xs) := by
  cases xs <;> simp [joinSp, String.append_assoc]

theorem foldl_stepA_ne (l : List String) (a : String) (ha : a ≠ "") :
    l.foldl stepA a = joinSp (a :: l) := by
  induction l generalizing a with
  | nil => simp [joinSp]
  | cons x xs ih =>
    have hne : a ++ " " ++ x ≠ "" := by
      intro hcontra
      have := congrArg String.length hcontra
      simp [String.length_append] at this
      exact absurd this.1.2 (by decide)
    calc (x :: xs).foldl stepA a = xs.foldl stepA (a ++ " " ++ x) := by
          simp [stepA, ha]
      _ = joinSp ((a ++ " " ++ x) :: xs) := ih _ hne
      _ = a ++ " " ++ joinSp (x :: xs) := joinSp_cons_append a x xs
      _ = joinSp (a :: x :: xs) := by simp [joinSp]

theorem foldl_stepA_empty (l : List String) (hl : ∀ x ∈ l, x ≠ "") :
    l.foldl stepA "" = joinSp l := by
  cases l with
  | nil => rfl
  | cons x xs =>
    have hx : x ≠ "" := hl x (by simp)
    calc (x :: xs).foldl stepA "" = xs.foldl stepA x := by simp [stepA]
      _ = joinSp (x :: xs) := foldl_stepA_ne xs x hx

theorem foldl_mergeStep_user (rows : List Row) (turn : Turn) :
    (rows.foldl mergeStep turn).user =
      ((rows.filter (fun r => r.message ≠ "")).map Row.message).getLastD turn.user := by
  induction rows generalizing turn with
  | nil => rfl
  | cons r rest ih =>
    rw [List.foldl_cons, ih (mergeStep turn r)]
    by_cases hm : r.message = ""
    · have hu : (mergeStep turn r).user = turn.user := by simp [mergeStep, hm]
      rw [hu, List.filter_cons, if_neg (by simp [hm])]
    · have hu : (mergeStep turn r).user = r.message := by simp [mergeStep, hm]
      rw [hu, List.filter_cons, if_pos (by simp [hm]), List.map_cons,
        List.getLastD_cons]

theorem foldl_mergeStep_assistant (rows : List Row) (turn : Turn) :
    (rows.foldl mergeStep turn).assistant =
      ((rows.filter (fun r => r.text ≠ "")).map Row.text).foldl stepA turn.assistant := by
  induction rows generalizing turn with
  | nil => rfl
  | cons r rest ih =>
    by_cases ht : r.text = ""
    · simp only [List.foldl_cons, ih, List.filter_cons]
      simp [mergeStep, ht]
    · simp only [List.foldl_cons, ih, List.filter_cons]
      simp [mergeStep, stepA, ht]

theorem buildTurns_same_time (t : Nat) (rows : List Row) (turn : Turn)
    (hts : ∀ r ∈ rows, r.create_time = t) :
    rows.foldl upsertTurn [(t, turn)] = [(t, rows.foldl mergeStep turn)] := by
  induction rows generalizing turn with
  | nil => rfl
  | cons r rest ih =>
    have hr : r.create_time = t := hts r (by simp)
    have hstep : upsertTurn [(t, turn)] r = [(t, mergeStep turn r)] := by
      simp [upsertTurn, hr]
    simp only [List.foldl_cons, hstep]
    exact ih (mergeStep turn r) (fun q hq => hts q (by simp [hq]))

/-- C8: rows sharing a timestamp merge into one turn where the last
non-empty user text wins and the non-empty assistant texts are joined with
single spaces; in particular the two spec examples merge to
(user "hi", assistant "hello") and (user "hi", assistant "hello there"). -/
theorem aggregation :
    (∀ (t : Nat) (rows : List Row), rows ≠ [] → (∀ r ∈ rows, r.create_time = t) →
      buildTurns rows = [(t, ⟨lastNonEmptyUser rows, joinedAssistant rows⟩)]) ∧
    _process_query_results [⟨"hi", "", 1⟩, ⟨"", "hello", 1⟩] true =
      [⟨"user", "hi"⟩, ⟨"assistant", "hello"⟩] ∧
    _process_query_results [⟨"hi", "", 1⟩, ⟨"", "hello", 1⟩, ⟨"", "there", 1⟩] true =
      [⟨"user", "hi"⟩, ⟨"assistant", "hello there"⟩] := by
  refine ⟨?_, by decide, by decide⟩
  intro t rows hne hts
  match rows with
  | r0 :: rest =>
    have h0 : r0.create_time = t := hts r0 (by simp)
    have hfirst : upsertTurn [] r0 = [(t, mergeStep ⟨"", ""⟩ r0)] := by
      simp [upsertTurn, h0]
    have hbuild : buildTurns (r0 :: rest) =
        [(t, rest.foldl mergeStep (mergeStep ⟨"", ""⟩ r0))] := by
      unfold buildTurns
      simp only [List.foldl_cons, hfirst]
      exact buildTurns_same_time t rest (mergeStep ⟨"", ""⟩ r0)
        (fun q hq => hts q (by simp [hq]))
    rw [hbuild]
    have hfold : rest.foldl mergeStep (mergeStep ⟨"", ""⟩ r0) =
        (r0 :: rest).foldl mergeStep ⟨"", ""⟩ := rfl
    rw [hfold]
    have huser := foldl_mergeStep_user (r0 :: rest) ⟨"", ""⟩
    have hassist := foldl_mergeStep_assistant (r0 :: rest) ⟨"", ""⟩
    have hall : ∀ x ∈ ((r0 :: rest).filter (fun r => r.text ≠ "")).map Row.text,
        x ≠ "" := by
      intro x hx
      rcases List.mem_map.mp hx with ⟨q, hq, hqx⟩
      have := List.mem_filter.mp hq
      subst hqx
      simpa using this.2
    have hjoin := foldl_stepA_empty _ hall
    refine congrArg (fun τ => [(t, τ)]) ?_
    cases hturn : (r0 :: rest).foldl mergeStep ⟨"", ""⟩ with
    | mk uu aa =>
      congr 1
      · have := huser
        rw [hturn] at this
        simpa [lastNonEmptyUser] using this
      · have := hassist
        rw [hturn] at this
        simp only [this] at *
        rw [joinedAssistant, ← hjoin]
        rw [hturn] at hassist
        exact hassist.symm ▸ rfl

/-- Witness for C8: the general merge statement applied to the three-row
spec example. -/
theorem aggregation_witness :
    buildTurns [⟨"hi", "", 1⟩, ⟨"", "hello", 1⟩, ⟨"", "there", 1⟩] =
      [(1, ⟨"hi", "hello there"⟩)] := by
  have h := aggregation.1 1 [⟨"hi", "", 1⟩, ⟨"", "hello", 1⟩, ⟨"", "there", 1⟩]
    (by decide) (by decide)
  rw [h]
  decide

end Flai
